import Mathlib

/-!
Verification of the image-enhancement pipeline in src/App.tsx.

The pixel store of a canvas is modelled as a flat RGBA byte array
(`ImageData.data`, row-major, 4 bytes per pixel), exactly the layout that
`ctx.getImageData` exposes.  Channel arithmetic performed by the filters in
JavaScript doubles is modelled over ℚ; a store into a `Uint8ClampedArray`
clamps to [0, 255] and rounds to the nearest integer with ties to even
(`toByte` below, the ECMAScript ToUint8Clamp conversion).

Each filter in the source snapshots the buffer (`tempData`) and writes every
cell from that snapshot only, so a loop body writing index `idx` is embedded
as a function of the flat index: decode `idx` into pixel coordinates and a
channel, and produce either the filtered value or the untouched input byte.
-/

namespace DpiEnhancer

/-- A canvas pixel store: dimensions plus the flat RGBA byte sequence
(byte at flat index `i`; only indices below `width * height * 4` are in frame). -/
structure ImageData where
  width : ℕ
  height : ℕ
  data : ℕ → ℕ

/-- The numeric fields of an EnhancementPreset in src/App.tsx (lines 10-21);
icon/name/description are display metadata the pipeline never reads. -/
structure EnhancementSettings where
  brightness : ℚ
  contrast : ℚ
  sharpness : ℚ
  deblur : ℚ
  denoise : ℚ

/-- A Resolution entry (src/App.tsx lines 4-8). -/
structure ResolutionTarget where
  name : String
  dpi : ℕ
  description : String

/-- RESOLUTIONS catalog entry (line 24). -/
def standardWeb : ResolutionTarget :=
  ⟨"Standard Web", 72, "Best for web and digital display"⟩

/-- RESOLUTIONS catalog entry (line 25). -/
def mediumQuality : ResolutionTarget :=
  ⟨"Medium Quality", 150, "Good for larger screens and basic prints"⟩

/-- RESOLUTIONS catalog entry (line 26). -/
def printQuality : ResolutionTarget :=
  ⟨"Print Quality", 300, "Ideal for standard printing"⟩

/-- RESOLUTIONS catalog entry (line 27). -/
def highResPrint : ResolutionTarget :=
  ⟨"High-Res Print", 600, "Perfect for professional printing"⟩

/-- ENHANCEMENT_PRESETS "Balanced" settings (lines 34-40):
brightness 1.0, contrast 1.0, sharpness 1.1, deblur 0.5, denoise 0.3. -/
def balanced : EnhancementSettings := ⟨1, 1, 11/10, 1/2, 3/10⟩

/-- ENHANCEMENT_PRESETS "Clarity" settings (lines 46-52). -/
def clarity : EnhancementSettings := ⟨21/20, 11/10, 7/5, 4/5, 2/5⟩

/-- ENHANCEMENT_PRESETS "HDR" settings (lines 58-64). -/
def hdr : EnhancementSettings := ⟨23/20, 13/10, 6/5, 3/5, 1/2⟩

/-- ENHANCEMENT_PRESETS "AI Enhance" settings (lines 70-76). -/
def aiEnhance : EnhancementSettings := ⟨11/10, 6/5, 3/2, 1, 7/10⟩

/-- ECMAScript ToUint8Clamp: the conversion applied on every store into a
`Uint8ClampedArray` cell — clamp to [0, 255], round to nearest, ties to even. -/
def toByte (q : ℚ) : ℕ :=
  if q ≤ 0 then 0
  else if 255 ≤ q then 255
  else if 1/2 < q - ⌊q⌋ then (⌊q⌋).toNat + 1
  else if q - ⌊q⌋ < 1/2 then (⌊q⌋).toNat
  else if (⌊q⌋).toNat % 2 = 1 then (⌊q⌋).toNat + 1 else (⌊q⌋).toNat

/-- Insert into a sorted list, ascending. -/
def insertSorted (a : ℕ) : List ℕ → List ℕ
  | [] => [a]
  | b :: l => if a ≤ b then a :: b :: l else b :: insertSorted a l

/-- Ascending insertion sort: the result of the numeric-comparator
`neighbors.sort((a, b) => a - b)` in src/App.tsx line 212. -/
def sortList : List ℕ → List ℕ
  | [] => []
  | a :: l => insertSorted a (sortList l)

/-- The channel values of the `(2r+1) × (2r+1)` window centred at pixel
`(x, y)`, channel `c`, read row-major from the snapshot `buf` — the values
the inner `ky`/`kx` loops of `applyDenoise` / `applyDeblur` visit
(offsets `ky - r`, `kx - r` range over `-r .. r`; the enclosing guard
keeps `x, y ≥ r`, so the ℕ subtractions below never truncate). -/
def windowList (buf : ImageData) (x y c r : ℕ) : List ℕ :=
  (List.range (2 * r + 1)).flatMap fun ky =>
    (List.range (2 * r + 1)).map fun kx =>
      buf.data (((y + ky - r) * buf.width + (x + kx - r)) * 4 + c)

/-- The byte `applyDenoise` (src/App.tsx lines 185-222) leaves at flat index
`idx`: for a colour channel of a pixel whose full window is in bounds
(the loop ranges `radius ≤ y < height - radius`, `radius ≤ x < width - radius`,
`c < 3`), blend the original with the window median; otherwise untouched. -/
def denoiseData (buf : ImageData) (strength : ℚ) (idx : ℕ) : ℕ :=
  let w := buf.width
  let h := buf.height
  let radius := (⌈strength * 2⌉).toNat
  let c := idx % 4
  let p := idx / 4
  let x := p % w
  let y := p / w
  if c < 3 ∧ radius ≤ x ∧ x + radius < w ∧ radius ≤ y ∧ y + radius < h then
    let neighbors := windowList buf x y c radius
    let sorted := sortList neighbors
    let median := sorted.getD (sorted.length / 2) 0
    toByte ((buf.data idx : ℚ) * (1 - strength) + (median : ℚ) * strength)
  else
    buf.data idx

/-- `applyDenoise` as a buffer transform (dimensions unchanged). -/
def applyDenoisePure (buf : ImageData) (strength : ℚ) : ImageData :=
  ⟨buf.width, buf.height, denoiseData buf strength⟩

/-- The byte `applyDeblur` (src/App.tsx lines 137-183) leaves at flat index
`idx`: unsharp masking with `radius = ceil(strength * 3)`,
`amount = strength * 1.5`, `threshold = 10`; a channel is rewritten only when
the difference to the window mean exceeds the threshold, and the write is
`Math.min(255, Math.max(0, tempData[idx] + diff * amount))`. -/
def deblurData (buf : ImageData) (strength : ℚ) (idx : ℕ) : ℕ :=
  let w := buf.width
  let h := buf.height
  let radius := (⌈strength * 3⌉).toNat
  let amount := strength * (3/2)
  let c := idx % 4
  let p := idx / 4
  let x := p % w
  let y := p / w
  if c < 3 ∧ radius ≤ x ∧ x + radius < w ∧ radius ≤ y ∧ y + radius < h then
    let vals := windowList buf x y c radius
    let avg : ℚ := (vals.sum : ℚ) / (vals.length : ℚ)
    let diff : ℚ := (buf.data idx : ℚ) - avg
    if 10 < |diff| then
      toByte (min 255 (max 0 ((buf.data idx : ℚ) + diff * amount)))
    else
      buf.data idx
  else
    buf.data idx

/-- `applyDeblur` as a buffer transform (dimensions unchanged). -/
def applyDeblurPure (buf : ImageData) (strength : ℚ) : ImageData :=
  ⟨buf.width, buf.height, deblurData buf strength⟩

/-- The byte the brightness/contrast loop of `applyImageEnhancements`
(src/App.tsx lines 244-257) leaves at flat index `idx`: for every colour
channel of the frame (`i < data.length` stepping by pixel, `j < 3`), first
`data[i+j] = Math.min(255, data[i+j] * brightness)` (a byte store, so the
intermediate is rounded), then
`data[i+j] = Math.min(255, ((channel/255 - 0.5) * contrast + 0.5) * 255)`. -/
def toneData (buf : ImageData) (brightness contrast : ℚ) (idx : ℕ) : ℕ :=
  if idx < 4 * (buf.width * buf.height) ∧ idx % 4 < 3 then
    toByte (min 255
      ((((toByte (min 255 ((buf.data idx : ℚ) * brightness)) : ℚ) / 255 - 1/2)
          * contrast + 1/2) * 255))
  else
    buf.data idx

/-- The brightness/contrast pass as a buffer transform. -/
def applyTonePure (buf : ImageData) (brightness contrast : ℚ) : ImageData :=
  ⟨buf.width, buf.height, toneData buf brightness contrast⟩

/-- The 3×3 kernel sum of the sharpening block (src/App.tsx lines 262-282):
eight neighbours at weight −1, centre at weight `9 + boost`, values read
row-major from the pre-stage snapshot `tempImageData`. -/
def sharpenSum (buf : ImageData) (x y c : ℕ) (boost : ℚ) : ℚ :=
  ((List.range 3).flatMap fun ky =>
    (List.range 3).map fun kx =>
      (buf.data (((y + ky - 1) * buf.width + (x + kx - 1)) * 4 + c) : ℚ) *
        (if ky = 1 ∧ kx = 1 then 9 + boost else -1)).sum

/-- The byte the sharpening block (src/App.tsx lines 259-289) leaves at flat
index `idx`: for colour channels of non-border pixels
(`1 ≤ y < height - 1`, `1 ≤ x < width - 1`),
`data[idx] = Math.min(255, Math.max(0, sum))` with
`boost = (sharpness - 1) * 0.8`; the outermost ring is untouched. -/
def sharpenData (buf : ImageData) (sharpness : ℚ) (idx : ℕ) : ℕ :=
  let w := buf.width
  let h := buf.height
  let boost := (sharpness - 1) * (4/5)
  let c := idx % 4
  let p := idx / 4
  let x := p % w
  let y := p / w
  if c < 3 ∧ 1 ≤ x ∧ x + 1 < w ∧ 1 ≤ y ∧ y + 1 < h then
    toByte (min 255 (max 0 (sharpenSum buf x y c boost)))
  else
    buf.data idx

/-- The sharpening block as a buffer transform. -/
def applySharpenPure (buf : ImageData) (sharpness : ℚ) : ImageData :=
  ⟨buf.width, buf.height, sharpenData buf sharpness⟩

/-- Failures the pipeline can hit.  `indexSizeError` is the DOMException
`ctx.getImageData(0, 0, w, h)` raises when `w = 0` or `h = 0` (the only
failure path the source can reach).  `invalidDimension` is the error kind
the specification names; nothing in src/App.tsx ever raises it — it is
present only so the spec's error claim can be stated and compared. -/
inductive EnhanceError
  | indexSizeError
  | invalidDimension
deriving DecidableEq

/-- `ctx.getImageData(0, 0, width, height)`: raises IndexSizeError exactly
when either extent is zero, otherwise exposes the pixel store. -/
def getImageDataCheck (buf : ImageData) : Except EnhanceError ImageData :=
  if buf.width = 0 ∨ buf.height = 0 then .error .indexSizeError else .ok buf

/-- `applyDenoise` including its `getImageData` call (line 191). -/
def applyDenoiseCall (buf : ImageData) (strength : ℚ) :
    Except EnhanceError ImageData :=
  Except.bind (getImageDataCheck buf) fun b => .ok (applyDenoisePure b strength)

/-- `applyDeblur` including its `getImageData` call (line 143). -/
def applyDeblurCall (buf : ImageData) (strength : ℚ) :
    Except EnhanceError ImageData :=
  Except.bind (getImageDataCheck buf) fun b => .ok (applyDeblurPure b strength)

/-- `applyImageEnhancements` (src/App.tsx lines 224-292): denoise when
`settings.denoise > 0`, deblur when `settings.deblur > 0`, an unconditional
`getImageData` (line 240) followed by the brightness/contrast loop, then the
sharpening block when `settings.sharpness > 1`, then `putImageData`. -/
def applyImageEnhancements (settings : EnhancementSettings) (buf : ImageData) :
    Except EnhanceError ImageData :=
  Except.bind
    (if 0 < settings.denoise then applyDenoiseCall buf settings.denoise
     else .ok buf) fun b1 =>
  Except.bind
    (if 0 < settings.deblur then applyDeblurCall b1 settings.deblur
     else .ok b1) fun b2 =>
  Except.bind (getImageDataCheck b2) fun b3 =>
  let t := applyTonePure b3 settings.brightness settings.contrast
  .ok (if 1 < settings.sharpness then applySharpenPure t settings.sharpness else t)

/-- `scaleFactor = selectedResolution.dpi / 72` (src/App.tsx line 306). -/
def scaleFactor (target : ResolutionTarget) : ℚ := (target.dpi : ℚ) / 72

/-- The extent a `canvas.width = img.width * scaleFactor` assignment
(src/App.tsx lines 307-308) actually produces: the canvas width/height IDL
attributes are WebIDL unsigned longs, so the double is converted by taking
its integer part (truncation — for the nonnegative values here, the floor)
modulo 2^32.  The source applies no rounding and no 1×1 minimum. -/
def canvasLength (n : ℕ) (sf : ℚ) : ℕ := (⌊(n : ℚ) * sf⌋).toNat % 2 ^ 32

/-- Modelled from the spec: the dimension rule the specification states for
the Resampler — "round(src.width * scaleFactor)" with "minimum 1×1"
(spec.md §4.1).  Kept separate from `canvasLength` (the code's rule) so the
two can be compared. -/
def specRoundDim (n : ℕ) (sf : ℚ) : ℕ := max 1 (round ((n : ℚ) * sf)).toNat

/-- `ctx.drawImage(img, 0, 0, canvas.width, canvas.height)` (line 317):
the browser's smoothing interpolation is a host primitive outside the
repository, so the pixel values it produces are an arbitrary parameter
`interp`; the embedding fixes only the dimensions of the scaled buffer. -/
def drawScaled (interp : ImageData → ℕ → ℕ → (ℕ → ℕ)) (src : ImageData)
    (w h : ℕ) : ImageData :=
  ⟨w, h, interp src w h⟩

/-- The pixel part of `enhanceImage` (src/App.tsx lines 294-335): compute the
canvas dimensions from the dpi scale factor, draw the scaled image, then run
`applyImageEnhancements` with the selected preset. -/
def enhanceImage (interp : ImageData → ℕ → ℕ → (ℕ → ℕ)) (src : ImageData)
    (target : ResolutionTarget) (settings : EnhancementSettings) :
    Except EnhanceError ImageData :=
  let cw := canvasLength src.width (scaleFactor target)
  let ch := canvasLength src.height (scaleFactor target)
  applyImageEnhancements settings (drawScaled interp src cw ch)

/-- Stage 2 of the pipeline as a pure transform with its guard:
denoise runs iff `settings.denoise > 0` (line 231). -/
def denoiseStage (settings : EnhancementSettings) (buf : ImageData) : ImageData :=
  if 0 < settings.denoise then applyDenoisePure buf settings.denoise else buf

/-- Stage 3 with its guard: deblur runs iff `settings.deblur > 0` (line 236). -/
def deblurStage (settings : EnhancementSettings) (buf : ImageData) : ImageData :=
  if 0 < settings.deblur then applyDeblurPure buf settings.deblur else buf

/-- Stage 4: the brightness/contrast loop always runs (lines 244-257). -/
def toneStage (settings : EnhancementSettings) (buf : ImageData) : ImageData :=
  applyTonePure buf settings.brightness settings.contrast

/-- Stage 5 with its guard: sharpen runs iff `settings.sharpness > 1` (line 260). -/
def sharpenStage (settings : EnhancementSettings) (buf : ImageData) : ImageData :=
  if 1 < settings.sharpness then applySharpenPure buf settings.sharpness else buf

/-! ### Concrete instances used to exercise the theorems -/

/-- A trivial stand-in for the browser's drawImage interpolation. -/
def interp0 : ImageData → ℕ → ℕ → (ℕ → ℕ) := fun _ _ _ => fun _ => 128

/-- A degenerate source with zero width. -/
def srcZero : ImageData := ⟨0, 5, fun _ => 0⟩

/-- A 1×1 opaque mid-gray source. -/
def src1 : ImageData := ⟨1, 1, fun _ => 128⟩

/-- A 2×2 mid-gray source. -/
def src2 : ImageData := ⟨2, 2, fun _ => 128⟩

/-- A 3×3 source, uniform 100 on colour channels, opaque alpha. -/
def buf3 : ImageData := ⟨3, 3, fun i => if i % 4 = 3 then 255 else 100⟩

/-- A 4×4 source with varying colour channels and opaque alpha. -/
def buf4 : ImageData := ⟨4, 4, fun i => if i % 4 = 3 then 255 else (i * 7) % 256⟩

/-- A 5×5 source with varying colour channels and opaque alpha. -/
def buf5 : ImageData := ⟨5, 5, fun i => if i % 4 = 3 then 255 else (i * 11) % 251⟩

/-- A 1×1 source whose colour channels are 200. -/
def gray200 : ImageData := ⟨1, 1, fun i => if i % 4 = 3 then 255 else 200⟩

/-- A settings value whose sharpness does not exceed 1 and whose denoise and
deblur strengths are zero. -/
def flatSettings : EnhancementSettings := ⟨1, 1, 1, 0, 0⟩

/-! ### Helper lemmas -/

theorem toByte_le_255 (q : ℚ) : toByte q ≤ 255 := by
  unfold toByte
  split_ifs with h1 h2 h3 h4 h5
  · exact Nat.zero_le _
  · exact le_refl _
  all_goals
    have hf : ⌊q⌋ < 255 := Int.floor_lt.mpr (by push_cast; linarith [not_le.mp h2])
    omega

theorem toByte_natCast (n : ℕ) (h : n ≤ 255) : toByte (n : ℚ) = n := by
  unfold toByte
  rcases Nat.eq_zero_or_pos n with h0 | h0
  · subst h0; norm_num
  rcases eq_or_lt_of_le h with h255 | h255
  · subst h255; norm_num
  have h1 : ¬ ((n : ℚ) ≤ 0) := not_le.mpr (by exact_mod_cast h0)
  have h2 : ¬ ((255 : ℚ) ≤ (n : ℚ)) := not_le.mpr (by exact_mod_cast h255)
  rw [if_neg h1, if_neg h2]
  simp only [Int.floor_natCast]
  norm_num

theorem toByte_clamp (q : ℚ) : toByte (min 255 (max 0 q)) = toByte (min 255 q) := by
  rcases le_or_lt q 0 with h | h
  · have h1 : max 0 q = 0 := max_eq_left h
    have h2 : min 255 q = q := min_eq_right (by linarith)
    rw [h1, h2]
    have h3 : min (255 : ℚ) 0 = 0 := by norm_num
    rw [h3]
    unfold toByte
    rw [if_pos (le_refl 0), if_pos h]
  · rw [max_eq_right h.le]

theorem insertSorted_length (a : ℕ) (l : List ℕ) :
    (insertSorted a l).length = l.length + 1 := by
  induction l with
  | nil => rfl
  | cons b l ih =>
    unfold insertSorted
    split_ifs <;> simp [ih]

theorem sortList_length (l : List ℕ) : (sortList l).length = l.length := by
  induction l with
  | nil => rfl
  | cons a l ih => simp [sortList, insertSorted_length, ih]

theorem windowList_length (buf : ImageData) (x y c r : ℕ) :
    (windowList buf x y c r).length = (2 * r + 1) * (2 * r + 1) := by
  unfold windowList
  rw [List.length_flatMap]
  simp [List.map_map, Function.comp_def]

theorem decode_mod4 (y w x c : ℕ) (hc : c < 4) :
    ((y * w + x) * 4 + c) % 4 = c := by omega

theorem decode_div4 (y w x c : ℕ) (hc : c < 4) :
    ((y * w + x) * 4 + c) / 4 = y * w + x := by omega

theorem decode_modw (y w x : ℕ) (hx : x < w) : (y * w + x) % w = x := by
  rw [Nat.add_comm, Nat.add_mul_mod_self_right]
  exact Nat.mod_eq_of_lt hx

theorem decode_divw (y w x : ℕ) (hx : x < w) : (y * w + x) / w = y := by
  have hw : 0 < w := lt_of_le_of_lt (Nat.zero_le x) hx
  rw [Nat.add_comm, Nat.add_mul_div_right _ _ hw, Nat.div_eq_of_lt hx, Nat.zero_add]

theorem ceil_toNat_eval (q : ℚ) (n : ℕ) (h1 : (n : ℚ) - 1 < q)
    (h2 : q ≤ (n : ℚ)) : (⌈q⌉).toNat = n := by
  have h : ⌈q⌉ = (n : ℤ) := by
    rw [Int.ceil_eq_iff]
    constructor
    · push_cast
      exact h1
    · push_cast
      exact h2
  rw [h]
  exact Int.toNat_natCast n

theorem applyDenoisePure_width (b : ImageData) (s : ℚ) :
    (applyDenoisePure b s).width = b.width := rfl

theorem applyDenoisePure_height (b : ImageData) (s : ℚ) :
    (applyDenoisePure b s).height = b.height := rfl

theorem applyDeblurPure_width (b : ImageData) (s : ℚ) :
    (applyDeblurPure b s).width = b.width := rfl

theorem applyDeblurPure_height (b : ImageData) (s : ℚ) :
    (applyDeblurPure b s).height = b.height := rfl

theorem applyTonePure_width (b : ImageData) (br ct : ℚ) :
    (applyTonePure b br ct).width = b.width := rfl

theorem applyTonePure_height (b : ImageData) (br ct : ℚ) :
    (applyTonePure b br ct).height = b.height := rfl

theorem denoiseStage_width (s : EnhancementSettings) (b : ImageData) :
    (denoiseStage s b).width = b.width := by
  unfold denoiseStage; split_ifs <;> rfl

theorem denoiseStage_height (s : EnhancementSettings) (b : ImageData) :
    (denoiseStage s b).height = b.height := by
  unfold denoiseStage; split_ifs <;> rfl

theorem deblurStage_width (s : EnhancementSettings) (b : ImageData) :
    (deblurStage s b).width = b.width := by
  unfold deblurStage; split_ifs <;> rfl

theorem deblurStage_height (s : EnhancementSettings) (b : ImageData) :
    (deblurStage s b).height = b.height := by
  unfold deblurStage; split_ifs <;> rfl

theorem sharpenStage_width (s : EnhancementSettings) (b : ImageData) :
    (sharpenStage s b).width = b.width := by
  unfold sharpenStage; split_ifs <;> rfl

theorem sharpenStage_height (s : EnhancementSettings) (b : ImageData) :
    (sharpenStage s b).height = b.height := by
  unfold sharpenStage; split_ifs <;> rfl

theorem except_bind_ok {α β ε : Type} (a : α) (f : α → Except ε β) :
    Except.bind (Except.ok a) f = f a := rfl

theorem except_bind_error {α β ε : Type} (e : ε) (f : α → Except ε β) :
    Except.bind (Except.error e : Except ε α) f = Except.error e := rfl

theorem getImageDataCheck_ok (buf : ImageData) (hw : buf.width ≠ 0)
    (hh : buf.height ≠ 0) : getImageDataCheck buf = Except.ok buf := by
  unfold getImageDataCheck
  rw [if_neg]
  push_neg
  exact ⟨hw, hh⟩

/-- On a buffer with nonzero extents, the whole of `applyImageEnhancements`
is exactly the guarded four-stage composition. -/
theorem applyImageEnhancements_eq (settings : EnhancementSettings)
    (buf : ImageData) (hw : buf.width ≠ 0) (hh : buf.height ≠ 0) :
    applyImageEnhancements settings buf =
      Except.ok (sharpenStage settings (toneStage settings
        (deblurStage settings (denoiseStage settings buf)))) := by
  have e1 : (if 0 < settings.denoise then applyDenoiseCall buf settings.denoise
      else .ok buf) = Except.ok (denoiseStage settings buf) := by
    unfold applyDenoiseCall denoiseStage
    rw [getImageDataCheck_ok buf hw hh]
    simp only [except_bind_ok]
    split_ifs <;> rfl
  have hw1 : (denoiseStage settings buf).width ≠ 0 := by
    rw [denoiseStage_width]; exact hw
  have hh1 : (denoiseStage settings buf).height ≠ 0 := by
    rw [denoiseStage_height]; exact hh
  have e2 : (if 0 < settings.deblur then
      applyDeblurCall (denoiseStage settings buf) settings.deblur
      else .ok (denoiseStage settings buf)) =
      Except.ok (deblurStage settings (denoiseStage settings buf)) := by
    unfold applyDeblurCall deblurStage
    rw [getImageDataCheck_ok _ hw1 hh1]
    simp only [except_bind_ok]
    split_ifs <;> rfl
  have hw2 : (deblurStage settings (denoiseStage settings buf)).width ≠ 0 := by
    rw [deblurStage_width]; exact hw1
  have hh2 : (deblurStage settings (denoiseStage settings buf)).height ≠ 0 := by
    rw [deblurStage_height]; exact hh1
  unfold applyImageEnhancements
  rw [e1]
  simp only [except_bind_ok]
  rw [e2]
  simp only [except_bind_ok]
  rw [getImageDataCheck_ok _ hw2 hh2]
  simp only [except_bind_ok]
  rfl

/-- With a zero extent, every path through `applyImageEnhancements` hits a
`getImageData` call, which raises IndexSizeError. -/
theorem applyImageEnhancements_zero (settings : EnhancementSettings)
    (buf : ImageData) (h : buf.width = 0 ∨ buf.height = 0) :
    applyImageEnhancements settings buf = Except.error .indexSizeError := by
  have hck : getImageDataCheck buf = Except.error .indexSizeError := if_pos h
  unfold applyImageEnhancements applyDenoiseCall applyDeblurCall
  by_cases hd : 0 < settings.denoise
  · simp only [if_pos hd, hck, except_bind_error]
  · rw [if_neg hd]
    simp only [except_bind_ok]
    by_cases hb : 0 < settings.deblur
    · simp only [if_pos hb, hck, except_bind_error]
    · rw [if_neg hb]
      simp only [except_bind_ok, hck, except_bind_error]

theorem canvasLength_zero (sf : ℚ) : canvasLength 0 sf = 0 := by
  unfold canvasLength
  norm_num

theorem canvasLength_one_sf (n : ℕ) (h : n < 2 ^ 32) : canvasLength n 1 = n := by
  unfold canvasLength
  rw [mul_one, Int.floor_natCast, Int.toNat_natCast]
  exact Nat.mod_eq_of_lt h

theorem toneStage_width (s : EnhancementSettings) (b : ImageData) :
    (toneStage s b).width = b.width := rfl

theorem toneStage_height (s : EnhancementSettings) (b : ImageData) :
    (toneStage s b).height = b.height := rfl

/-- The 1×1 run used as a witness: at 72 dpi the canvas is again 1×1, so the
pipeline succeeds and produces the four-stage composition. -/
theorem src1_enhance_ok : enhanceImage interp0 src1 standardWeb balanced =
    Except.ok (sharpenStage balanced (toneStage balanced (deblurStage balanced
      (denoiseStage balanced (drawScaled interp0 src1 1 1))))) := by
  have hc : canvasLength 1 (scaleFactor standardWeb) = 1 := by
    norm_num [canvasLength, scaleFactor, standardWeb]
  show applyImageEnhancements balanced (drawScaled interp0 src1
    (canvasLength src1.width (scaleFactor standardWeb))
    (canvasLength src1.height (scaleFactor standardWeb))) = _
  rw [show src1.width = 1 from rfl, show src1.height = 1 from rfl, hc]
  exact applyImageEnhancements_eq _ _ (by decide) (by decide)

/-! ### Claims -/

/-- C1: for every input buffer, resolution target and settings value (with a
nondegenerate scaled canvas, where the pipeline succeeds), the pipeline is
exactly: resample first, then denoise (run iff `settings.denoise > 0`), then
deblur (run iff `settings.deblur > 0`), then the always-run tone adjustment,
then sharpen (run iff `settings.sharpness > 1`) — nothing else, in no other
order. -/
theorem pipeline_order (interp : ImageData → ℕ → ℕ → (ℕ → ℕ)) (src : ImageData)
    (target : ResolutionTarget) (settings : EnhancementSettings)
    (hw : canvasLength src.width (scaleFactor target) ≠ 0)
    (hh : canvasLength src.height (scaleFactor target) ≠ 0) :
    enhanceImage interp src target settings =
      Except.ok (sharpenStage settings (toneStage settings (deblurStage settings
        (denoiseStage settings (drawScaled interp src
          (canvasLength src.width (scaleFactor target))
          (canvasLength src.height (scaleFactor target))))))) := by
  show applyImageEnhancements settings (drawScaled interp src
    (canvasLength src.width (scaleFactor target))
    (canvasLength src.height (scaleFactor target))) = _
  exact applyImageEnhancements_eq settings _ hw hh

/-- C1 witness: the composition on a concrete 2×2 buffer at 72 dpi. -/
theorem pipeline_order_witness :
    enhanceImage interp0 src2 standardWeb balanced =
      Except.ok (sharpenStage balanced (toneStage balanced (deblurStage balanced
        (denoiseStage balanced (drawScaled interp0 src2
          (canvasLength src2.width (scaleFactor standardWeb))
          (canvasLength src2.height (scaleFactor standardWeb))))))) :=
  pipeline_order interp0 src2 standardWeb balanced
    (by norm_num [canvasLength, scaleFactor, standardWeb, src2]; decide)
    (by norm_num [canvasLength, scaleFactor, standardWeb, src2]; decide)

/-- C8 counterexample: the spec says the resampled dimensions are
`round(src.width * scaleFactor)` with a minimum of 1×1, but the source
assigns the unrounded product to `canvas.width`, which the canvas coerces by
truncation with no minimum: a 6-pixel extent at 150 dpi gives 6·150/72 = 12.5,
which the code makes 12 while the spec's rule demands 13; a 0 extent stays 0
while the spec's rule demands 1. -/
theorem resample_round_counterexample :
    canvasLength 6 (scaleFactor mediumQuality) = 12 ∧
    specRoundDim 6 (scaleFactor mediumQuality) = 13 ∧
    canvasLength 0 (scaleFactor mediumQuality) = 0 ∧
    specRoundDim 0 (scaleFactor mediumQuality) = 1 := by
  norm_num [canvasLength, scaleFactor, mediumQuality, specRoundDim, round_eq]
  decide

/-- C8 (amended): a successful enhance run produces a buffer whose dimensions
are the truncation (floor, modulo 2^32 — the WebIDL unsigned-long coercion of
the `canvas.width`/`canvas.height` assignment) of `src.width * scaleFactor`
and `src.height * scaleFactor`, with `scaleFactor = target.dpi / 72` and no
1×1 minimum; in particular with dpi = 72 the output has exactly the source's
width and height. -/
theorem resample_dims (interp : ImageData → ℕ → ℕ → (ℕ → ℕ)) (src : ImageData)
    (target : ResolutionTarget) (settings : EnhancementSettings)
    (out : ImageData) (hw : src.width < 2 ^ 32) (hh : src.height < 2 ^ 32)
    (hok : enhanceImage interp src target settings = Except.ok out) :
    out.width = (⌊(src.width : ℚ) * scaleFactor target⌋).toNat % 2 ^ 32 ∧
    out.height = (⌊(src.height : ℚ) * scaleFactor target⌋).toNat % 2 ^ 32 ∧
    (target.dpi = 72 → out.width = src.width ∧ out.height = src.height) := by
  by_cases hz : canvasLength src.width (scaleFactor target) = 0 ∨
      canvasLength src.height (scaleFactor target) = 0
  · have h1 : enhanceImage interp src target settings =
        Except.error .indexSizeError := applyImageEnhancements_zero _ _ hz
    rw [h1] at hok
    exact Except.noConfusion hok
  · push_neg at hz
    have h2 : enhanceImage interp src target settings =
        Except.ok (sharpenStage settings (toneStage settings
          (deblurStage settings (denoiseStage settings (drawScaled interp src
            (canvasLength src.width (scaleFactor target))
            (canvasLength src.height (scaleFactor target))))))) :=
      applyImageEnhancements_eq settings _ hz.1 hz.2
    rw [h2] at hok
    injection hok with h3
    have hwout : out.width = canvasLength src.width (scaleFactor target) := by
      rw [← h3, sharpenStage_width, toneStage_width, deblurStage_width,
        denoiseStage_width]
      rfl
    have hhout : out.height = canvasLength src.height (scaleFactor target) := by
      rw [← h3, sharpenStage_height, toneStage_height, deblurStage_height,
        denoiseStage_height]
      rfl
    refine ⟨hwout, hhout, ?_⟩
    intro h72
    have hsf : scaleFactor target = 1 := by
      unfold scaleFactor
      rw [h72]
      norm_num
    rw [hwout, hhout, hsf, canvasLength_one_sf _ hw, canvasLength_one_sf _ hh]
    exact ⟨rfl, rfl⟩

/-- C8 witness: the 1×1 source at 72 dpi keeps its dimensions. -/
theorem resample_dims_witness :
    (sharpenStage balanced (toneStage balanced (deblurStage balanced
      (denoiseStage balanced (drawScaled interp0 src1 1 1))))).width = src1.width ∧
    (sharpenStage balanced (toneStage balanced (deblurStage balanced
      (denoiseStage balanced (drawScaled interp0 src1 1 1))))).height = src1.height :=
  (resample_dims interp0 src1 standardWeb balanced _ (by decide) (by decide)
    src1_enhance_ok).2.2 rfl

/-- C9 counterexample: on a zero-width source the call does not fail with the
spec's InvalidDimension error (the embedding shows it raises the host
IndexSizeError from `getImageData` instead; no InvalidDimension value is ever
produced by the code). -/
theorem enhance_zero_not_invalidDimension :
    enhanceImage interp0 srcZero mediumQuality balanced ≠
      Except.error EnhanceError.invalidDimension := by
  intro h
  have h1 : enhanceImage interp0 srcZero mediumQuality balanced =
      Except.error EnhanceError.indexSizeError :=
    applyImageEnhancements_zero _ _ (Or.inl (show
      canvasLength srcZero.width (scaleFactor mediumQuality) = 0 from by
        rw [show srcZero.width = 0 from rfl]
        exact canvasLength_zero _))
  rw [h1] at h
  injection h with h2
  exact EnhanceError.noConfusion h2

/-- C9 (amended): for every input whose source width or height is 0, the
enhance operation fails — the scaled canvas has a zero extent, so the first
`getImageData` call raises IndexSizeError — and no output buffer is returned;
the failure is the host DOMException, not an InvalidDimension error (no such
error exists in the code). -/
theorem enhance_zero_dim (interp : ImageData → ℕ → ℕ → (ℕ → ℕ))
    (src : ImageData) (target : ResolutionTarget)
    (settings : EnhancementSettings) (h : src.width = 0 ∨ src.height = 0) :
    enhanceImage interp src target settings =
      Except.error EnhanceError.indexSizeError := by
  refine applyImageEnhancements_zero _ _ ?_
  rcases h with h | h
  · exact Or.inl (show canvasLength src.width (scaleFactor target) = 0 by
      rw [h]; exact canvasLength_zero _)
  · exact Or.inr (show canvasLength src.height (scaleFactor target) = 0 by
      rw [h]; exact canvasLength_zero _)

/-- C9 witness: the zero-width source fails with IndexSizeError at 150 dpi. -/
theorem enhance_zero_dim_witness :
    enhanceImage interp0 srcZero printQuality balanced =
      Except.error EnhanceError.indexSizeError :=
  enhance_zero_dim interp0 srcZero printQuality balanced (Or.inl rfl)

/-- C2: for every buffer and settings, each of the four stages only ever
writes bytes in [0, 255] (given an in-range input byte, the output byte is in
range whether rewritten or passed through), and every alpha byte
(`idx % 4 = 3`) is bit-identical to the input alpha after each stage. -/
theorem stage_bounds_alpha (buf : ImageData) (s t b ct sh : ℚ) (idx : ℕ)
    (hbyte : buf.data idx ≤ 255) :
    ((applyDenoisePure buf s).data idx ≤ 255 ∧
     (applyDeblurPure buf t).data idx ≤ 255 ∧
     (applyTonePure buf b ct).data idx ≤ 255 ∧
     (applySharpenPure buf sh).data idx ≤ 255) ∧
    (idx % 4 = 3 →
      ((applyDenoisePure buf s).data idx = buf.data idx ∧
       (applyDeblurPure buf t).data idx = buf.data idx ∧
       (applyTonePure buf b ct).data idx = buf.data idx ∧
       (applySharpenPure buf sh).data idx = buf.data idx)) := by
  constructor
  · refine ⟨?_, ?_, ?_, ?_⟩
    · show denoiseData buf s idx ≤ 255
      simp only [denoiseData]
      split_ifs <;> first | exact toByte_le_255 _ | exact hbyte
    · show deblurData buf t idx ≤ 255
      simp only [deblurData]
      split_ifs <;> first | exact toByte_le_255 _ | exact hbyte
    · show toneData buf b ct idx ≤ 255
      simp only [toneData]
      split_ifs <;> first | exact toByte_le_255 _ | exact hbyte
    · show sharpenData buf sh idx ≤ 255
      simp only [sharpenData]
      split_ifs <;> first | exact toByte_le_255 _ | exact hbyte
  · intro h3
    refine ⟨?_, ?_, ?_, ?_⟩
    · show denoiseData buf s idx = buf.data idx
      simp only [denoiseData]
      rw [if_neg (fun hcon => absurd hcon.1 (by omega))]
    · show deblurData buf t idx = buf.data idx
      simp only [deblurData]
      rw [if_neg (fun hcon => absurd hcon.1 (by omega))]
    · show toneData buf b ct idx = buf.data idx
      simp only [toneData]
      rw [if_neg (fun hcon => absurd hcon.2 (by omega))]
    · show sharpenData buf sh idx = buf.data idx
      simp only [sharpenData]
      rw [if_neg (fun hcon => absurd hcon.1 (by omega))]

/-- C2 witness: on a concrete buffer, at the alpha index 3. -/
theorem stage_bounds_alpha_witness :
    ((applyDenoisePure src2 (3/10)).data 3 ≤ 255 ∧
     (applyDeblurPure src2 (1/2)).data 3 ≤ 255 ∧
     (applyTonePure src2 1 1).data 3 ≤ 255 ∧
     (applySharpenPure src2 (11/10)).data 3 ≤ 255) ∧
    ((applyDenoisePure src2 (3/10)).data 3 = src2.data 3 ∧
     (applyDeblurPure src2 (1/2)).data 3 = src2.data 3 ∧
     (applyTonePure src2 1 1).data 3 = src2.data 3 ∧
     (applySharpenPure src2 (11/10)).data 3 = src2.data 3) :=
  ⟨(stage_bounds_alpha src2 (3/10) (1/2) 1 1 (11/10) 3 (by decide)).1,
   (stage_bounds_alpha src2 (3/10) (1/2) 1 1 (11/10) 3 (by decide)).2 rfl⟩

theorem denoiseData_zero (buf : ImageData) (idx : ℕ)
    (hbyte : buf.data idx ≤ 255) : denoiseData buf 0 idx = buf.data idx := by
  simp only [denoiseData]
  split_ifs with hg
  · rw [show (1 : ℚ) - 0 = 1 from by norm_num, mul_one, mul_zero, add_zero]
    exact toByte_natCast _ hbyte
  · rfl

theorem deblurData_zero (buf : ImageData) (idx : ℕ)
    (hbyte : buf.data idx ≤ 255) : deblurData buf 0 idx = buf.data idx := by
  simp only [deblurData]
  split_ifs with hg hd
  · rw [show (0 : ℚ) * (3/2) = 0 from by norm_num, mul_zero, add_zero]
    rw [max_eq_right (Nat.cast_nonneg _), min_eq_right (by exact_mod_cast hbyte)]
    exact toByte_natCast _ hbyte
  · rfl
  · rfl

/-- C3: denoise at strength 0 and deblur at strength 0 leave every byte of
the buffer identical to the input, and the sharpen stage with
`settings.sharpness ≤ 1` is the identity on the buffer. -/
theorem noop_laws (buf : ImageData) (settings : EnhancementSettings) (idx : ℕ)
    (hbyte : buf.data idx ≤ 255) (hsh : settings.sharpness ≤ 1) :
    (applyDenoisePure buf 0).data idx = buf.data idx ∧
    (applyDeblurPure buf 0).data idx = buf.data idx ∧
    sharpenStage settings buf = buf := by
  refine ⟨denoiseData_zero buf idx hbyte, deblurData_zero buf idx hbyte, ?_⟩
  unfold sharpenStage
  rw [if_neg (not_lt.mpr hsh)]

/-- C3 witness: on a concrete 2×2 buffer and a sharpness-1 settings value. -/
theorem noop_laws_witness :
    (applyDenoisePure src2 0).data 0 = src2.data 0 ∧
    (applyDeblurPure src2 0).data 0 = src2.data 0 ∧
    sharpenStage flatSettings src2 = src2 :=
  noop_laws src2 flatSettings 0 (by decide) (by norm_num [flatSettings])

/-- C10: with the Balanced preset's brightness 1 and contrast 1 the
always-run tone stage leaves every byte identical to its input, despite the
intermediate division by 255 and re-multiplication. -/
theorem tone_identity (buf : ImageData) (idx : ℕ) (hbyte : buf.data idx ≤ 255) :
    (applyTonePure buf balanced.brightness balanced.contrast).data idx =
      buf.data idx := by
  show toneData buf balanced.brightness balanced.contrast idx = buf.data idx
  unfold toneData
  split_ifs with hg
  · have hv1 : toByte (min 255 ((buf.data idx : ℚ) * balanced.brightness)) =
        buf.data idx := by
      rw [show balanced.brightness = 1 from rfl, mul_one,
        min_eq_right (show (buf.data idx : ℚ) ≤ 255 from by exact_mod_cast hbyte)]
      exact toByte_natCast _ hbyte
    rw [hv1]
    rw [show (((buf.data idx : ℚ) / 255 - 1/2) * balanced.contrast + 1/2) * 255 =
        (buf.data idx : ℚ) from by
      rw [show balanced.contrast = 1 from rfl]; field_simp; ring]
    rw [min_eq_right (show (buf.data idx : ℚ) ≤ 255 from by exact_mod_cast hbyte)]
    exact toByte_natCast _ hbyte
  · rfl

/-- C10 witness: on a concrete byte. -/
theorem tone_identity_witness :
    (applyTonePure src2 balanced.brightness balanced.contrast).data 0 =
      src2.data 0 :=
  tone_identity src2 0 (by decide)

/-- C6: tone adjustment applies, to every colour channel of every pixel of
the frame (no border skip), brightness first and contrast second — the value
stored is the byte of `clamp(v·brightness, 0, 255)` fed through
`clamp(((v/255 − 0.5)·contrast + 0.5)·255, 0, 255)` — and in particular a
channel value 200 with brightness 1.2 and contrast 1.0 yields 240. -/
theorem tone_spec (buf : ImageData) (b ct : ℚ) (idx : ℕ)
    (hidx : idx < 4 * (buf.width * buf.height)) (hc : idx % 4 < 3) :
    (applyTonePure buf b ct).data idx =
      toByte (min 255 (max 0
        ((((toByte (min 255 (max 0 ((buf.data idx : ℚ) * b))) : ℚ) / 255 - 1/2)
            * ct + 1/2) * 255))) ∧
    (applyTonePure gray200 (6/5) 1).data 0 = 240 := by
  constructor
  · show toneData buf b ct idx = _
    simp only [toneData, if_pos (And.intro hidx hc)]
    rw [toByte_clamp, toByte_clamp]
  · show toneData gray200 (6/5) 1 0 = 240
    have h1 : toByte (min 255 ((gray200.data 0 : ℚ) * (6/5))) = 240 := by
      rw [show min 255 ((gray200.data 0 : ℚ) * (6/5)) = ((240 : ℕ) : ℚ) from by
        rw [show gray200.data 0 = 200 from rfl]; push_cast; norm_num]
      exact toByte_natCast 240 (by norm_num)
    have h2 : toByte (min 255
        (((((240 : ℕ) : ℚ) / 255 - 1/2) * 1 + 1/2) * 255)) = 240 := by
      rw [show min 255 (((((240 : ℕ) : ℚ) / 255 - 1/2) * 1 + 1/2) * 255) =
          ((240 : ℕ) : ℚ) from by push_cast; norm_num]
      exact toByte_natCast 240 (by norm_num)
    unfold toneData
    rw [if_pos (And.intro (by decide) (by decide))]
    rw [h1]
    exact h2

/-- C6 witness: the formula at a concrete in-frame colour index. -/
theorem tone_spec_witness :
    (applyTonePure src2 (6/5) 1).data 0 =
      toByte (min 255 (max 0
        ((((toByte (min 255 (max 0 ((src2.data 0 : ℚ) * (6/5)))) : ℚ) / 255 - 1/2)
            * 1 + 1/2) * 255))) ∧
    (applyTonePure gray200 (6/5) 1).data 0 = 240 :=
  tone_spec src2 (6/5) 1 0 (by decide) (by decide)

/-- C4: for every buffer and strength > 0, denoise uses window radius
`r = ceil(strength * 2)`; every colour channel of a pixel whose full
`(2r+1)×(2r+1)` window lies inside the image is written as the byte of
`original*(1-strength) + median*strength`, the median being the middle
element (index `(2r+1)²/2`) of the ascending sort of the window values read
from the pre-filter snapshot; and every pixel within `r` of any border is
left unmodified. -/
theorem denoise_spec (buf : ImageData) (s : ℚ) (r x y c : ℕ)
    (hs : 0 < s) (hr : r = (⌈s * 2⌉).toNat) (hc : c < 3)
    (hx1 : r ≤ x) (hx2 : x + r < buf.width)
    (hy1 : r ≤ y) (hy2 : y + r < buf.height) :
    (applyDenoisePure buf s).data ((y * buf.width + x) * 4 + c) =
      toByte ((buf.data ((y * buf.width + x) * 4 + c) : ℚ) * (1 - s) +
        (((sortList (windowList buf x y c r)).getD
            ((2 * r + 1) * (2 * r + 1) / 2) 0 : ℕ) : ℚ) * s) ∧
    (∀ x1 y1 c1, c1 < 4 → x1 < buf.width → y1 < buf.height →
      (x1 < r ∨ buf.width ≤ x1 + r ∨ y1 < r ∨ buf.height ≤ y1 + r) →
      (applyDenoisePure buf s).data ((y1 * buf.width + x1) * 4 + c1) =
        buf.data ((y1 * buf.width + x1) * 4 + c1)) := by
  constructor
  · show denoiseData buf s ((y * buf.width + x) * 4 + c) = _
    simp only [denoiseData]
    rw [decode_div4 _ _ _ _ (by omega),
      decode_mod4 _ _ _ _ (by omega),
      decode_modw _ _ _ (by omega), decode_divw _ _ _ (by omega), ← hr]
    rw [if_pos ⟨hc, hx1, hx2, hy1, hy2⟩]
    rw [sortList_length, windowList_length]
  · intro x1 y1 c1 hc1 hxw hyh hb
    show denoiseData buf s ((y1 * buf.width + x1) * 4 + c1) = _
    simp only [denoiseData]
    rw [decode_div4 _ _ _ _ hc1, decode_mod4 _ _ _ _ hc1,
      decode_modw _ _ _ hxw, decode_divw _ _ _ hxw, ← hr]
    rw [if_neg]
    rintro ⟨h1, h2, h3, h4, h5⟩
    omega

/-- C4 witness: the blend formula at the interior pixel (1,1) of a 4×4
buffer at strength 0.3 (radius 1), and the border pixel (0,0) untouched. -/
theorem denoise_spec_witness :
    (applyDenoisePure buf4 (3/10)).data ((1 * buf4.width + 1) * 4 + 0) =
      toByte ((buf4.data ((1 * buf4.width + 1) * 4 + 0) : ℚ) * (1 - 3/10) +
        (((sortList (windowList buf4 1 1 0 1)).getD
            ((2 * 1 + 1) * (2 * 1 + 1) / 2) 0 : ℕ) : ℚ) * (3/10)) ∧
    (applyDenoisePure buf4 (3/10)).data ((0 * buf4.width + 0) * 4 + 0) =
      buf4.data ((0 * buf4.width + 0) * 4 + 0) :=
  ⟨(denoise_spec buf4 (3/10) 1 1 1 0 (by norm_num)
      ((ceil_toNat_eval ((3/10 : ℚ) * 2) 1 (by norm_num) (by norm_num)).symm)
      (by norm_num) (by norm_num) (by decide) (by norm_num) (by decide)).1,
   (denoise_spec buf4 (3/10) 1 1 1 0 (by norm_num)
      ((ceil_toNat_eval ((3/10 : ℚ) * 2) 1 (by norm_num) (by norm_num)).symm)
      (by norm_num) (by norm_num) (by decide) (by norm_num) (by decide)).2
      0 0 0 (by norm_num) (by decide) (by decide) (Or.inl (by norm_num))⟩

/-- C5: for every buffer and strength > 0, deblur uses
`radius = ceil(strength * 3)`, `amount = strength * 1.5` and threshold 10;
on every colour channel of a pixel with a fully in-bounds window it computes
`diff = original - mean` over the `(2·radius+1)²` snapshot window, writes the
byte of `clamp(original + diff * amount, 0, 255)` when `|diff| > 10`, leaves
the channel unchanged otherwise, and leaves every pixel within `radius` of
any border unmodified. -/
theorem deblur_spec (buf : ImageData) (s : ℚ) (r x y c : ℕ)
    (hs : 0 < s) (hr : r = (⌈s * 3⌉).toNat) (hc : c < 3)
    (hx1 : r ≤ x) (hx2 : x + r < buf.width)
    (hy1 : r ≤ y) (hy2 : y + r < buf.height) :
    ((10 : ℚ) < |(buf.data ((y * buf.width + x) * 4 + c) : ℚ) -
        ((windowList buf x y c r).sum : ℚ) /
          (((2 * r + 1) * (2 * r + 1) : ℕ) : ℚ)| →
      (applyDeblurPure buf s).data ((y * buf.width + x) * 4 + c) =
        toByte (min 255 (max 0
          ((buf.data ((y * buf.width + x) * 4 + c) : ℚ) +
            ((buf.data ((y * buf.width + x) * 4 + c) : ℚ) -
              ((windowList buf x y c r).sum : ℚ) /
                (((2 * r + 1) * (2 * r + 1) : ℕ) : ℚ)) * (s * (3/2)))))) ∧
    (|(buf.data ((y * buf.width + x) * 4 + c) : ℚ) -
        ((windowList buf x y c r).sum : ℚ) /
          (((2 * r + 1) * (2 * r + 1) : ℕ) : ℚ)| ≤ 10 →
      (applyDeblurPure buf s).data ((y * buf.width + x) * 4 + c) =
        buf.data ((y * buf.width + x) * 4 + c)) ∧
    (∀ x1 y1 c1, c1 < 4 → x1 < buf.width → y1 < buf.height →
      (x1 < r ∨ buf.width ≤ x1 + r ∨ y1 < r ∨ buf.height ≤ y1 + r) →
      (applyDeblurPure buf s).data ((y1 * buf.width + x1) * 4 + c1) =
        buf.data ((y1 * buf.width + x1) * 4 + c1)) := by
  refine ⟨?_, ?_, ?_⟩
  · intro hd
    show deblurData buf s ((y * buf.width + x) * 4 + c) = _
    simp only [deblurData]
    rw [decode_div4 _ _ _ _ (by omega), decode_mod4 _ _ _ _ (by omega),
      decode_modw _ _ _ (by omega), decode_divw _ _ _ (by omega), ← hr,
      windowList_length]
    rw [if_pos ⟨hc, hx1, hx2, hy1, hy2⟩, if_pos hd]
  · intro hd
    show deblurData buf s ((y * buf.width + x) * 4 + c) = _
    simp only [deblurData]
    rw [decode_div4 _ _ _ _ (by omega), decode_mod4 _ _ _ _ (by omega),
      decode_modw _ _ _ (by omega), decode_divw _ _ _ (by omega), ← hr,
      windowList_length]
    rw [if_pos ⟨hc, hx1, hx2, hy1, hy2⟩, if_neg (not_lt.mpr hd)]
  · intro x1 y1 c1 hc1 hxw hyh hb
    show deblurData buf s ((y1 * buf.width + x1) * 4 + c1) = _
    simp only [deblurData]
    rw [decode_div4 _ _ _ _ hc1, decode_mod4 _ _ _ _ hc1,
      decode_modw _ _ _ hxw, decode_divw _ _ _ hxw, ← hr]
    rw [if_neg]
    rintro ⟨h1, h2, h3, h4, h5⟩
    omega

/-- C5 witness: the two write cases at the interior pixel (2,2) of a 5×5
buffer at strength 0.5 (radius 2), and the border pixel (0,0) untouched. -/
theorem deblur_spec_witness :
    ((10 : ℚ) < |(buf5.data ((2 * buf5.width + 2) * 4 + 0) : ℚ) -
        ((windowList buf5 2 2 0 2).sum : ℚ) /
          (((2 * 2 + 1) * (2 * 2 + 1) : ℕ) : ℚ)| →
      (applyDeblurPure buf5 (1/2)).data ((2 * buf5.width + 2) * 4 + 0) =
        toByte (min 255 (max 0
          ((buf5.data ((2 * buf5.width + 2) * 4 + 0) : ℚ) +
            ((buf5.data ((2 * buf5.width + 2) * 4 + 0) : ℚ) -
              ((windowList buf5 2 2 0 2).sum : ℚ) /
                (((2 * 2 + 1) * (2 * 2 + 1) : ℕ) : ℚ)) * ((1/2) * (3/2)))))) ∧
    (|(buf5.data ((2 * buf5.width + 2) * 4 + 0) : ℚ) -
        ((windowList buf5 2 2 0 2).sum : ℚ) /
          (((2 * 2 + 1) * (2 * 2 + 1) : ℕ) : ℚ)| ≤ 10 →
      (applyDeblurPure buf5 (1/2)).data ((2 * buf5.width + 2) * 4 + 0) =
        buf5.data ((2 * buf5.width + 2) * 4 + 0)) ∧
    (applyDeblurPure buf5 (1/2)).data ((0 * buf5.width + 0) * 4 + 0) =
      buf5.data ((0 * buf5.width + 0) * 4 + 0) :=
  ⟨(deblur_spec buf5 (1/2) 2 2 2 0 (by norm_num)
      ((ceil_toNat_eval ((1/2 : ℚ) * 3) 2 (by norm_num) (by norm_num)).symm)
      (by norm_num) (by norm_num) (by decide) (by norm_num) (by decide)).1,
   (deblur_spec buf5 (1/2) 2 2 2 0 (by norm_num)
      ((ceil_toNat_eval ((1/2 : ℚ) * 3) 2 (by norm_num) (by norm_num)).symm)
      (by norm_num) (by norm_num) (by decide) (by norm_num) (by decide)).2.1,
   (deblur_spec buf5 (1/2) 2 2 2 0 (by norm_num)
      ((ceil_toNat_eval ((1/2 : ℚ) * 3) 2 (by norm_num) (by norm_num)).symm)
      (by norm_num) (by norm_num) (by decide) (by norm_num) (by decide)).2.2
      0 0 0 (by norm_num) (by decide) (by decide) (Or.inl (by norm_num))⟩

/-- On a window whose nine snapshot values all equal `v`, the un-normalised
kernel collapses: `v·(9 + boost) − 8·v = v·(1 + boost)`. -/
theorem sharpenSum_uniform (buf : ImageData) (x y c v : ℕ) (boost : ℚ)
    (huni : ∀ ky, ky < 3 → ∀ kx, kx < 3 →
      buf.data (((y + ky - 1) * buf.width + (x + kx - 1)) * 4 + c) = v) :
    sharpenSum buf x y c boost = (v : ℚ) * (1 + boost) := by
  unfold sharpenSum
  rw [show List.range 3 = [0, 1, 2] from rfl]
  simp only [List.flatMap_cons, List.flatMap_nil, List.map_cons, List.map_nil,
    List.append_nil, List.sum_append, List.sum_cons, List.sum_nil]
  rw [huni 0 (by norm_num) 0 (by norm_num), huni 0 (by norm_num) 1 (by norm_num),
    huni 0 (by norm_num) 2 (by norm_num), huni 1 (by norm_num) 0 (by norm_num),
    huni 1 (by norm_num) 1 (by norm_num), huni 1 (by norm_num) 2 (by norm_num),
    huni 2 (by norm_num) 0 (by norm_num), huni 2 (by norm_num) 1 (by norm_num),
    huni 2 (by norm_num) 2 (by norm_num)]
  norm_num
  ring

/-- C7: when `sharpness > 1` the sharpen stage uses
`boost = (sharpness − 1) · 0.8` and writes every colour channel of every
non-border pixel as the clamped byte of the 3×3 convolution (eight
neighbours at weight −1, centre at `9 + boost`) of the pre-stage snapshot,
leaving the outermost ring unmodified; on a window whose nine values all
equal `v` the output is the clamped byte of `v · (1 + boost)` — uniform
regions are scaled by `1 + boost`, not left invariant. -/
theorem sharpen_spec (settings : EnhancementSettings) (buf : ImageData)
    (x y c v : ℕ) (hsh : 1 < settings.sharpness) (hc : c < 3)
    (hx1 : 1 ≤ x) (hx2 : x + 1 < buf.width)
    (hy1 : 1 ≤ y) (hy2 : y + 1 < buf.height) :
    (sharpenStage settings buf).data ((y * buf.width + x) * 4 + c) =
      toByte (min 255 (max 0
        (sharpenSum buf x y c ((settings.sharpness - 1) * (4/5))))) ∧
    ((∀ ky, ky < 3 → ∀ kx, kx < 3 →
        buf.data (((y + ky - 1) * buf.width + (x + kx - 1)) * 4 + c) = v) →
      (sharpenStage settings buf).data ((y * buf.width + x) * 4 + c) =
        toByte (min 255 (max 0
          ((v : ℚ) * (1 + (settings.sharpness - 1) * (4/5)))))) ∧
    (∀ x1 y1 c1, c1 < 4 → x1 < buf.width → y1 < buf.height →
      (x1 = 0 ∨ buf.width ≤ x1 + 1 ∨ y1 = 0 ∨ buf.height ≤ y1 + 1) →
      (sharpenStage settings buf).data ((y1 * buf.width + x1) * 4 + c1) =
        buf.data ((y1 * buf.width + x1) * 4 + c1)) := by
  have hstage : sharpenStage settings buf = applySharpenPure buf settings.sharpness := by
    unfold sharpenStage
    rw [if_pos hsh]
  have hmain : (sharpenStage settings buf).data ((y * buf.width + x) * 4 + c) =
      toByte (min 255 (max 0
        (sharpenSum buf x y c ((settings.sharpness - 1) * (4/5))))) := by
    rw [hstage]
    show sharpenData buf settings.sharpness ((y * buf.width + x) * 4 + c) = _
    simp only [sharpenData]
    rw [decode_div4 _ _ _ _ (by omega), decode_mod4 _ _ _ _ (by omega),
      decode_modw _ _ _ (by omega), decode_divw _ _ _ (by omega)]
    rw [if_pos ⟨hc, hx1, hx2, hy1, hy2⟩]
  refine ⟨hmain, ?_, ?_⟩
  · intro huni
    rw [hmain, sharpenSum_uniform buf x y c v _ huni]
  · intro x1 y1 c1 hc1 hxw hyh hb
    rw [hstage]
    show sharpenData buf settings.sharpness ((y1 * buf.width + x1) * 4 + c1) = _
    simp only [sharpenData]
    rw [decode_div4 _ _ _ _ hc1, decode_mod4 _ _ _ _ hc1,
      decode_modw _ _ _ hxw, decode_divw _ _ _ hxw]
    rw [if_neg]
    rintro ⟨h1, h2, h3, h4, h5⟩
    omega

/-- C7 witness: the kernel formula, the uniform-region scaling on the all-100
3×3 buffer with the AI Enhance sharpness 1.5, and the border pixel (0,0)
untouched. -/
theorem sharpen_spec_witness :
    (sharpenStage aiEnhance buf3).data ((1 * buf3.width + 1) * 4 + 0) =
      toByte (min 255 (max 0
        (sharpenSum buf3 1 1 0 ((aiEnhance.sharpness - 1) * (4/5))))) ∧
    (sharpenStage aiEnhance buf3).data ((1 * buf3.width + 1) * 4 + 0) =
      toByte (min 255 (max 0
        ((100 : ℚ) * (1 + (aiEnhance.sharpness - 1) * (4/5))))) ∧
    (sharpenStage aiEnhance buf3).data ((0 * buf3.width + 0) * 4 + 0) =
      buf3.data ((0 * buf3.width + 0) * 4 + 0) :=
  ⟨(sharpen_spec aiEnhance buf3 1 1 0 100 (by norm_num [aiEnhance])
      (by norm_num) (by norm_num) (by decide) (by norm_num) (by decide)).1,
   (sharpen_spec aiEnhance buf3 1 1 0 100 (by norm_num [aiEnhance])
      (by norm_num) (by norm_num) (by decide) (by norm_num) (by decide)).2.1
      (by decide),
   (sharpen_spec aiEnhance buf3 1 1 0 100 (by norm_num [aiEnhance])
      (by norm_num) (by norm_num) (by decide) (by norm_num) (by decide)).2.2
      0 0 0 (by norm_num) (by decide) (by decide) (Or.inl rfl)⟩

end DpiEnhancer
